import Mathlib

/-!
Shallow embedding of the `node-spf-check` core (`src/index.js`) and proofs
about it.

Modelling conventions:
* JavaScript `async` control flow with one mutable per-check context
  (`this.queryDNSCount`, `this.warnings`) becomes an explicit
  state-passing monad `M`; a thrown JS value becomes the `Res.thr` outcome
  (carrying either a typed `SPFResult` or a plain error message, mirroring
  `err instanceof SPFResult`), and non-termination (in the source prevented
  only by the DNS budget) is represented by a fuel parameter whose
  exhaustion yields the distinguished outcome `Res.div`, which no embedded
  `try/catch` intercepts.
* External collaborators (the `dns` module, the `spf-parse` parser,
  `ipaddr.js`, `tldjs`) are abstract capabilities bundled in an `Env`
  record, as the specification prescribes.
* The mutable JS arrays that `evaluateInclude` shares across recursive
  calls (`includeMechanisms`, with visible `push` mutations after a
  `slice`) are modelled by an explicit array store inside the state;
  array references are store indices.
-/

namespace SpfCheck

/-- The seven SPF outcomes, `results` in the source. -/
inductive RKind where
  | None
  | Neutral
  | Pass
  | Fail
  | SoftFail
  | TempError
  | PermError
deriving DecidableEq, Repr

/-- Default description texts, the `messages` table of the source. -/
def messagesOf : RKind → String
  | .None => "Cannot assert whether or not the client host is authorized"
  | .Neutral => "Domain owner has explicitly stated that he cannot or does not want to assert whether or not the IP address is authorized"
  | .Pass => "Client is authorized to inject mail with the given identity"
  | .Fail => "Client is *not* authorized to use the domain in the given identity"
  | .SoftFail => "Domain believes the host is not authorized but is not willing to make that strong of a statement"
  | .TempError => "Encountered a transient error while performing the check"
  | .PermError => "Domain\x27s published records could not be correctly interpreted"

/-- The key strings of the `results` object, used where the source compares
or constructs results from strings (e.g. `mechanism.prefixdesc`). -/
def kindOfString : String → Option RKind
  | "None" => some RKind.None
  | "Neutral" => some RKind.Neutral
  | "Pass" => some RKind.Pass
  | "Fail" => some RKind.Fail
  | "SoftFail" => some RKind.SoftFail
  | "TempError" => some RKind.TempError
  | "PermError" => some RKind.PermError
  | _ => Option.none

/-- Embedding of the `SPFResult` class: outcome, description, the mechanism
that produced it (`"default"` if none) and the list of matched mechanism
types. -/
structure SPFResult where
  result : RKind
  message : String
  mechanism : String
  matched : List String
deriving DecidableEq, Repr

/-- Embedding of the `SPFResult` constructor when called with a known-valid
result kind: a non-string or empty message is replaced by the default text,
`mechanism` starts as `"default"` and `matched` as `[]`. -/
def mkRes (k : RKind) (msg : String) : SPFResult :=
  { result := k
    message := if msg = "" then messagesOf k else msg
    mechanism := "default"
    matched := [] }

/-- Embedding of the `SPFResult` constructor when called with an arbitrary
string key (only happens with `mechanism.prefixdesc` in `evaluate` /
`evaluateInclude`); an unknown key throws a plain `TypeError`, which the
monad below models as a plain thrown error. -/
def mkResOfString (s : String) : Except String SPFResult :=
  match kindOfString s with
  | some k => .ok (mkRes k "")
  | Option.none => .error ("Result \"" ++ s ++ "\" not found")

/-- A value thrown by the JS code: either a typed `SPFResult` or any other
error, identified only by its message (`err.message`). -/
inductive Thrown where
  | spf (r : SPFResult)
  | plain (msg : String)
deriving DecidableEq, Repr

/-- JS string interpolation of a possibly-undefined value
(`'...' + mechanism.value + '...'`). -/
def jsStr (v : Option String) : String := v.getD "undefined"

/-- An MX record as returned by `dns.resolve(host, 'MX')`. -/
structure MXrec where
  priority : Nat
  exchange : String
deriving DecidableEq, Repr

/-- An MX record after `resolveMX` attached the address records of its
exchange. -/
structure MXResolved where
  priority : Nat
  exchange : String
  records : List String
deriving DecidableEq, Repr

/-- DNS record types used by the checker. -/
inductive RR where
  | TXT
  | A
  | AAAA
  | MX
deriving DecidableEq, Repr

/-- Abstract parsed client address (produced by the external `ipaddr.js`):
its family (`"ipv4"` or `"ipv6"`) and its `toString()` rendering. -/
structure IPAddr where
  kind : String
  str : String
deriving DecidableEq, Repr

/-- Abstract parsed CIDR (result of the external `ipaddr.parseCIDR`); only
its address family is inspected directly by the source, membership testing
is a further external capability. -/
structure CIDR where
  kind : String
  text : String
deriving DecidableEq, Repr

/-- One mechanism as delivered by the external `spf-parse` module:
a type token, an optional value and the qualifier-derived outcome name
(`prefixdesc`). -/
structure Mech where
  type : String
  value : Option String
  prefixdesc : String
deriving DecidableEq, Repr

/-- One diagnostic message of the external parser. -/
structure ParseMsg where
  type : String
  message : String
deriving DecidableEq, Repr

/-- The result object of the external `spf-parse` module. The `messages`
field is optional, mirroring `_.has(parsed, 'messages')`. -/
structure Parsed where
  valid : Bool
  mechanisms : List Mech
  messages : Option (List ParseMsg)
deriving DecidableEq, Repr

/-- The deferred resolution step the source attaches as `mechanism.resolve`;
each closure captures the effective host (`mechanism.value || hostname`),
or the include target, together with the ambient `rrtype`. -/
inductive RAction where
  | aRec (host : String) (rrtype : RR)
  | mxRec (host : String) (rrtype : RR)
  | incRec (dom : String) (rrtype : RR)
deriving DecidableEq, Repr

/-- A mechanism during/after resolution: the parsed fields plus the fields
the source mutates onto the object (`records`, `exchanges`, `address`,
`includes`, `evaluated`, and the attached `resolve` step). Fields the
source leaves `undefined` are `Option.none`. -/
inductive RMech where
  | mk (type : String) (value : Option String) (prefixdesc : String)
       (action : Option RAction)
       (records : Option (List String))
       (exchanges : Option (List MXResolved))
       (address : Option CIDR)
       (includes : Option (List RMech))
       (evaluated : Option SPFResult)

namespace RMech

def type : RMech → String | .mk t _ _ _ _ _ _ _ _ => t

def value : RMech → Option String | .mk _ v _ _ _ _ _ _ _ => v

def prefixdesc : RMech → String | .mk _ _ p _ _ _ _ _ _ => p

def action : RMech → Option RAction | .mk _ _ _ a _ _ _ _ _ => a

def records : RMech → Option (List String) | .mk _ _ _ _ r _ _ _ _ => r

def exchanges : RMech → Option (List MXResolved) | .mk _ _ _ _ _ e _ _ _ => e

def address : RMech → Option CIDR | .mk _ _ _ _ _ _ a _ _ => a

def includes : RMech → Option (List RMech) | .mk _ _ _ _ _ _ _ i _ => i

def evaluated : RMech → Option SPFResult | .mk _ _ _ _ _ _ _ _ e => e

/-- Set the `evaluated` field (the `mechanism.evaluated = ...` mutation). -/
def withEvaluated (m : RMech) (e : Option SPFResult) : RMech :=
  match m with
  | .mk t v p a r x ad i _ => .mk t v p a r x ad i e

end RMech

/-- The data returned by a `mechanism.resolve()` closure, merged onto the
mechanism by `_.assign`. -/
inductive AssignData where
  | recs (l : List String)
  | exch (l : List MXResolved)
  | incl (l : List RMech)

/-- Embedding of `_.assign(mechanism, await mechanism.resolve())`. -/
def RMech.assign (m : RMech) (d : AssignData) : RMech :=
  match m, d with
  | .mk t v p a _ x ad i e, .recs l => .mk t v p a (some l) x ad i e
  | .mk t v p a r _ ad i e, .exch l => .mk t v p a r (some l) ad i e
  | .mk t v p a r x ad _ e, .incl l => .mk t v p a r x ad (some l) e

/-- The per-check mutable context: the shared DNS query counter, the
accumulated parser warnings, and the store of JS arrays shared by
reference inside `evaluateInclude` (each array is addressed by its index
in the store). -/
structure SPFState where
  queryDNSCount : Nat
  warnings : List String
  arrays : List (List RMech)

/-- The initial per-check context built by the `SPF` constructor. -/
def initState : SPFState :=
  { queryDNSCount := 0, warnings := [], arrays := [] }

/-- Outcome of one embedded computation: a value, a thrown JS value, or
divergence (out of fuel, representing a run the source would not complete
either). -/
inductive Res (α : Type) where
  | ok (a : α)
  | thr (t : Thrown)
  | div
deriving DecidableEq, Repr

/-- The computation monad: explicit state passing plus thrown values plus
divergence. State changes made before a throw persist, as in JS. -/
def M (α : Type) : Type := SPFState → Res α × SPFState

def M.pure (a : α) : M α := fun s => (.ok a, s)

def M.bind (x : M α) (k : α → M β) : M β := fun s =>
  match x s with
  | (.ok a, s') => k a s'
  | (.thr t, s') => (.thr t, s')
  | (.div, s') => (.div, s')

instance : Monad M where
  pure := M.pure
  bind := M.bind

/-- Throw a JS value. -/
def throwRes (t : Thrown) : M α := fun s => (.thr t, s)

/-- Throw a typed `SPFResult` (`throw new SPFResult(kind, msg)`). -/
def throwSpf (k : RKind) (msg : String) : M α := throwRes (.spf (mkRes k msg))

/-- Fuel exhaustion. -/
def divM : M α := fun s => (.div, s)

/-- Embedding of `try { x } catch (err) { h }`: only thrown values are
intercepted, divergence passes through. -/
def mcatch (x : M α) (h : Thrown → M α) : M α := fun s =>
  match x s with
  | (.thr t, s') => h t s'
  | r => r

def getSt : M SPFState := fun s => (.ok s, s)

def modifySt (f : SPFState → SPFState) : M Unit := fun s => (.ok (), f s)

/-- Allocate a fresh JS array in the store, returning its reference. -/
def allocArr (l : List RMech) : M Nat := fun s =>
  (.ok s.arrays.length, { s with arrays := s.arrays ++ [l] })

/-- Read the current contents of a stored array. -/
def readArr (ref : Nat) : M (List RMech) := fun s =>
  (.ok ((s.arrays.getD ref [])), s)

/-- Embedding of `array.push(...items)` on a stored array. -/
def pushArr (ref : Nat) (items : List RMech) : M Unit := fun s =>
  (.ok (), { s with arrays := s.arrays.set ref ((s.arrays.getD ref []) ++ items) })

/-- Write one slot of a stored array (the in-place mutation of the
mechanism object held in that slot). -/
def writeArr (ref : Nat) (i : Nat) (m : RMech) : M Unit := fun s =>
  (.ok (), { s with arrays := s.arrays.set ref ((s.arrays.getD ref []).set i m) })

/-- The external collaborators of the checker, bundled: typed views of
`dns.resolve` (Node returns per-rrtype shapes: TXT chunk lists, address
string lists, MX objects), the `spf-parse` parser (which, being an external
call, may also throw, carried as `Except.error`), `ipaddr.isValid` /
`ipaddr.parse` / `ipaddr.parseCIDR` / address-in-CIDR testing, and
`tldjs.isValid`. -/
structure Env where
  dnsTXT : String → Except String (List (List String))
  dnsAddr : String → RR → Except String (List String)
  dnsMX : String → Except String (List MXrec)
  parsePolicy : String → Except String Parsed
  ipValid : String → Bool
  domainValid : String → Bool
  parseIP : String → IPAddr
  parseCIDR : String → Option CIDR
  cidrContains : CIDR → IPAddr → Bool

/-- The `SPFOptions` of the source with their defaults. -/
structure Options where
  version : Nat := 1
  prefetch : Bool := false
  maxDNS : Nat := 10

/-- Everything an `SPF` instance closes over: the external capabilities,
the checked domain, and the options. (The `sender` field is never consulted
by the checking logic and is omitted.) -/
structure Ctx where
  env : Env
  domain : String
  opts : Options

/-- Character-list test that `p` is a prefix of `s` (the semantics of
`_.startsWith(record, p)`), stated over `String.data` so that concrete
runs reduce inside the kernel. -/
def listIsFront : List Char → List Char → Bool
  | [], _ => true
  | _ :: _, [] => false
  | p :: ps, c :: cs => p = c && listIsFront ps cs

/-- Embedding of `_.startsWith(s, p)`. -/
def strStartsWith (s p : String) : Bool := listIsFront p.data s.data

/-- Embedding of `s.indexOf('/') !== -1` and similar single-character
searches. -/
def strContainsChar (s : String) (c : Char) : Bool := s.data.any (fun x => x = c)

/-- ASCII lower-casing of one character. JS `toLowerCase()` is applied to
domain names, which are ASCII; the embedding models the ASCII case. -/
def charLower (c : Char) : Char :=
  if 65 ≤ c.toNat ∧ c.toNat ≤ 90 then Char.ofNat (c.toNat + 32) else c

/-- Embedding of `s.toLowerCase()` on domain names. -/
def strLower (s : String) : String := String.mk (s.data.map charLower)

/-- One character of the JS regular expression
`new RegExp('queryTxt (ENOTFOUND|ENODATA) ' + hostname)` matched against
one text character. The only metacharacter occurring in a hostname is
`.`, which in a regular expression matches any character; all other
pattern characters match literally. -/
def patCharMatches (p c : Char) : Bool := p = '.' || p = c

/-- Does the pattern match a prefix of the text. -/
def patMatchesFront : List Char → List Char → Bool
  | [], _ => true
  | _ :: _, [] => false
  | p :: ps, c :: cs => patCharMatches p c && patMatchesFront ps cs

/-- Unanchored regular-expression search (`RegExp.test`): does the pattern
match at some position of the text. -/
def patOccurs (p : List Char) : List Char → Bool
  | [] => patMatchesFront p []
  | c :: cs => patMatchesFront p (c :: cs) || patOccurs p cs

/-- Embedding of the test
`(new RegExp('queryTxt (ENOTFOUND|ENODATA) ' + hostname)).test(err.message)`
from `resolveDNS`, with the two-way alternation expanded. -/
def dnsNotFoundTest (hostname msg : String) : Bool :=
  patOccurs ("queryTxt ENOTFOUND " ++ hostname).data msg.data ||
  patOccurs ("queryTxt ENODATA " ++ hostname).data msg.data

/-- Core of `SPF.resolveDNS`, generic over the record shape: the budget
pre-check (`lookupLimit && queryDNSCount >= maxDNS` throws PermError before
the lookup is issued), the counter increment on completion of an issued
lookup (`lookupLimit && this.queryDNSCount++`, on success and failure
alike), and the error mapping. `query` is the outcome the underlying
resolver reports for this hostname/rrtype; `lookupLimitArg` models the
optional JS parameter (`_.isNil(lookupLimit) || lookupLimit === true`). -/
def resolveDNScore (ctx : Ctx) (query : Except String α) (hostname : String)
    (lookupLimitArg : Option Bool) : M α :=
  let lookupLimit := lookupLimitArg.isNone || lookupLimitArg == some true
  fun s =>
    if lookupLimit ∧ ctx.opts.maxDNS ≤ s.queryDNSCount then
      (.thr (.spf (mkRes .PermError "Limit of DNS lookups reached")), s)
    else
      let s' := if lookupLimit then { s with queryDNSCount := s.queryDNSCount + 1 } else s
      match query with
      | .error msg =>
          if dnsNotFoundTest hostname msg then
            (.thr (.spf (mkRes .None "Domain does not exists")), s')
          else
            (.thr (.spf (mkRes .TempError msg)), s')
      | .ok recs => (.ok recs, s')

/-- `SPF.resolveDNS` instantiated at `rrtype = 'TXT'`: the multi-segment
records are joined (`_.map(records, record => _.join(record, ''))`). -/
def resolveDNStxt (ctx : Ctx) (hostname : String) (lookupLimitArg : Option Bool) :
    M (List String) := do
  let chunks ← resolveDNScore ctx (ctx.env.dnsTXT hostname) hostname lookupLimitArg
  pure (chunks.map String.join)

/-- `SPF.resolveDNS` instantiated at an address record type (A / AAAA). -/
def resolveDNSaddr (ctx : Ctx) (hostname : String) (rrtype : RR)
    (lookupLimitArg : Option Bool) : M (List String) :=
  resolveDNScore ctx (ctx.env.dnsAddr hostname rrtype) hostname lookupLimitArg

/-- `SPF.resolveDNS` instantiated at `rrtype = 'MX'`. -/
def resolveDNSmx (ctx : Ctx) (hostname : String) (lookupLimitArg : Option Bool) :
    M (List MXrec) :=
  resolveDNScore ctx (ctx.env.dnsMX hostname) hostname lookupLimitArg

/-- The per-exchange address lookups of `SPF.resolveMX`: each one is issued
with `lookupLimit = false`, so none of them is budgeted. -/
def mxLoop (ctx : Ctx) (rrtype : RR) : List MXrec → M (List MXResolved)
  | [] => pure []
  | e :: rest => do
      let recs ← resolveDNSaddr ctx e.exchange rrtype (some false)
      let tail ← mxLoop ctx rrtype rest
      pure ({ priority := e.priority, exchange := e.exchange, records := recs } :: tail)

/-- Stable ascending insertion used to embed `_.sortBy(exchanges,
'priority')` (lodash sorts stably by ascending key). -/
def sortInsert (e : MXResolved) : List MXResolved → List MXResolved
  | [] => [e]
  | x :: xs => if x.priority ≤ e.priority then x :: sortInsert e xs else e :: x :: xs

/-- Stable sort by priority, embedding `_.sortBy(exchanges, 'priority')`. -/
def sortByPriority : List MXResolved → List MXResolved
  | [] => []
  | x :: xs => sortInsert x (sortByPriority xs)

/-- Embedding of `SPF.resolveMX`: a budgeted MX lookup, the pre-check that
the exchange count alone stays under the budget, then one unbudgeted
address lookup per exchange, sorted by priority. -/
def resolveMX (ctx : Ctx) (hostname : String) (rrtype : RR) : M (List MXResolved) := do
  let exchanges ← resolveDNSmx ctx hostname Option.none
  if ctx.opts.maxDNS ≤ exchanges.length then
    throwSpf .PermError "Limit of DNS lookups reached when processing MX mechanism"
  else do
    let resolved ← mxLoop ctx rrtype exchanges
    pure (sortByPriority resolved)

/-- JS `mechanism.value || hostname`: an absent or empty value falls back
to the policy's own hostname. -/
def jsOr (v : Option String) (d : String) : String :=
  match v with
  | some s => if s = "" then d else s
  | Option.none => d

/-- JS truthiness of `mechanism.value` (a string: truthy iff non-empty). -/
def jsTruthy (v : Option String) : Bool :=
  match v with
  | some s => s != ""
  | Option.none => false

/-- Embedding of `_.merge(result.matched, mechanism.evaluated.matched)`.
On arrays, lodash `merge` overwrites the destination index-wise with the
source entries, keeping only destination entries beyond the source's
length. -/
def lodashMerge (dst src : List String) : List String :=
  src ++ dst.drop src.length

/-- Execution of one attached `mechanism.resolve()` closure, parameterized
by the (one-fuel-lower) recursive policy resolver used for `include`. -/
def runActionF (ctx : Ctx) (rspf : String → RR → M (List RMech)) :
    RAction → M AssignData
  | .aRec host rr => do
      let recs ← resolveDNSaddr ctx host rr Option.none
      pure (.recs recs)
  | .mxRec host rr => do
      let ex ← resolveMX ctx host rr
      pure (.exch ex)
  | .incRec dom rr => do
      let l ← rspf dom rr
      pure (.incl l)

/-- The for-loop of `SPF.resolveSPF` over the parsed mechanisms, with the
accumulator `resolved`. A `redirect` is followed (recursively resolved and
spliced in place) only when `catchAll` is false, and never emits an entry
of its own; `a`/`mx`/`include` get a deferred resolution step attached;
`ip4`/`ip6` get a normalized, parsed network or fail with PermError; with
`prefetch` the attached step runs immediately; the mechanism is appended
and the loop stops right after appending an `all`. -/
def resolveMechLoopAux (ctx : Ctx) (rspf : String → RR → M (List RMech))
    (hostname : String) (rrtype : RR) (catchAll : Bool) :
    List Mech → List RMech → M (List RMech)
  | [], acc => pure acc
  | m :: rest, acc =>
    if m.type = "redirect" then
      if catchAll then resolveMechLoopAux ctx rspf hostname rrtype catchAll rest acc
      else do
        -- `resolveSPF(mechanism.value, rrtype)`; the parser always supplies
        -- a value for `redirect`, a missing one is modelled as "".
        let sub ← rspf (m.value.getD "") rrtype
        resolveMechLoopAux ctx rspf hostname rrtype catchAll rest (acc ++ sub)
    else do
      let action : Option RAction :=
        if m.type = "a" then some (.aRec (jsOr m.value hostname) rrtype)
        else if m.type = "mx" then some (.mxRec (jsOr m.value hostname) rrtype)
        else if m.type = "include" then some (.incRec (m.value.getD "") rrtype)
        else Option.none
      let va ← (if m.type = "ip4" ∨ m.type = "ip6" then
          match m.value with
          | Option.none =>
              -- `mechanism.value.indexOf('/')` on an undefined value
              throwRes (.plain "Cannot read properties of undefined (reading indexOf)")
          | some v =>
              let v' := if strContainsChar v '/' then v
                        else v ++ (if m.type = "ip4" then "/32" else "/128")
              match ctx.env.parseCIDR v' with
              | some c => M.pure (some v', some c)
              | Option.none =>
                  throwSpf .PermError ("Malformed \"" ++ m.type ++ "\" address")
        else M.pure (m.value, (Option.none : Option CIDR)))
      let rm := RMech.mk m.type va.1 m.prefixdesc action Option.none Option.none va.2
                  Option.none Option.none
      let rm ← (if ctx.opts.prefetch then
          match rm.action with
          | some a => do
              let d ← runActionF ctx rspf a
              M.pure (rm.assign d)
          | Option.none => M.pure rm
        else M.pure rm)
      if m.type = "all" then pure (acc ++ [rm])
      else resolveMechLoopAux ctx rspf hostname rrtype catchAll rest (acc ++ [rm])

/-- Body of `SPF.resolveSPF` for one policy: budgeted TXT fetch, version
filtering, the zero/multiple record checks, the US-ASCII check, the
external parse, parse error/warning handling, then the mechanism loop.
`rspf` is the recursive resolver used for `redirect` and `include`. -/
def resolveSPFAux (ctx : Ctx) (rspf : String → RR → M (List RMech))
    (hostname : String) (rrtype : RR) : M (List RMech) := do
  let strs ← resolveDNStxt ctx hostname Option.none
  let records := strs.filter
    (fun r => strStartsWith r ("v=spf" ++ toString ctx.opts.version ++ " "))
  if records.length = 0 then
    throwSpf .None "Assume that the domain makes no SPF declarations"
  else if 1 < records.length then
    throwSpf .PermError "There should be exactly one record remaining"
  else
    -- `records.pop()`: exactly one record remains at this point.
    let record := records.getLastD ""
    if record.data.any (fun c => 127 < c.toNat) then
      throwSpf .PermError "Character content of the record should be encoded as US-ASCII"
    else
      match ctx.env.parsePolicy record with
      | .error msg => throwRes (.plain msg)
      | .ok parsed =>
        if parsed.valid = false then
          throwSpf .PermError "There shouldn\x27t be any syntax errors"
        else
          let cont : M (List RMech) :=
            resolveMechLoopAux ctx rspf hostname rrtype
              (parsed.mechanisms.any (fun m => m.type == "all")) parsed.mechanisms []
          match parsed.messages with
          | some msgs =>
            (match msgs.filter (fun m => m.type == "error") with
             | e :: _ => throwSpf .PermError e.message
             | [] => do
                 modifySt (fun s =>
                   { s with warnings := s.warnings ++
                       (msgs.filter (fun m => m.type == "warning")).map ParseMsg.message })
                 cont)
          | Option.none => cont

/-- Embedding of `SPF.resolveSPF`, by fuel: each recursion level (through
`redirect` splicing or an `include` resolution step) consumes one unit. In
the source the recursion is bounded solely by the DNS budget. -/
def resolveSPF (ctx : Ctx) : Nat → String → RR → M (List RMech)
  | 0 => fun _ _ => divM
  | fuel + 1 => resolveSPFAux ctx (resolveSPF ctx fuel)

/-- Embedding of `SPF.match`. `addrOpt` is `Option.none` when called from
`evaluateInclude` (the source passes no address there); the plain throws
model the `TypeError`s the JS code would raise on undefined accesses. -/
def matchM (ctx : Ctx) (m : RMech) (addrOpt : Option IPAddr) : M Bool :=
  if m.type = "version" then
    if m.value ≠ some ("spf" ++ toString ctx.opts.version) then
      throwSpf .PermError ("Version \"" ++ jsStr m.value ++ "\" not supported")
    else pure false
  else if m.type = "a" then
    match addrOpt with
    | some addr => pure ((m.records.getD []).contains addr.str)
    | Option.none => throwRes (.plain "Cannot read properties of undefined (reading toString)")
  else if m.type = "mx" then
    match m.exchanges with
    | Option.none => throwRes (.plain "Cannot read properties of undefined (reading length)")
    | some exs =>
      match exs with
      | [] => pure false
      | _ :: _ =>
        match addrOpt with
        | some addr => pure (exs.any (fun e => e.records.contains addr.str))
        | Option.none => throwRes (.plain "Cannot read properties of undefined (reading toString)")
  else if m.type = "ip4" ∨ m.type = "ip6" then
    match addrOpt with
    | Option.none => throwRes (.plain "Cannot read properties of undefined (reading kind)")
    | some addr =>
      match m.address with
      | Option.none => throwRes (.plain "Cannot read properties of undefined (reading 0)")
      | some c => if addr.kind ≠ c.kind then pure false else pure (ctx.env.cidrContains c addr)
  else if m.type = "include" then
    match m.evaluated with
    | Option.none => throwRes (.plain "Cannot read properties of undefined (reading result)")
    | some ev =>
      if ev.result = RKind.None then
        throwSpf .PermError ("Validation for \"include:" ++ jsStr m.value ++ "\" missed")
      else pure (ev.result == RKind.Pass)
  else if m.type = "all" then pure true
  else throwSpf .PermError ("Mechanism \"" ++ m.type ++ "\" not supported")

/-- Construction of the result on a match, shared verbatim by `evaluate`
and `evaluateInclude` in the source: `new SPFResult(mechanism.prefixdesc)`
(a plain TypeError on an unknown outcome name), then `mechanism` and
`matched` are set, the latter lodash-merged with the nested include
result's `matched` list. `evOpt` is `mechanism.evaluated`. -/
def buildMatchResult (m : RMech) (evOpt : Option SPFResult) : M SPFResult := do
  let r ← (match mkResOfString m.prefixdesc with
           | .ok r => M.pure r
           | .error e => throwRes (.plain e))
  let r := { r with mechanism := m.type, matched := [m.type] }
  if m.type = "include" then
    match evOpt with
    | some ev => pure { r with matched := lodashMerge [m.type] ev.matched }
    | Option.none => throwRes (.plain "Cannot read properties of undefined (reading matched)")
  else pure r

/-- The loop of `SPF.evaluate`, parameterized by the one-fuel-lower action
runner and recursive evaluator: deferred resolution (when `prefetch` is
off), recursive evaluation of an `include`'s nested mechanisms, then the
matcher; the first match builds the result, otherwise Neutral. -/
def evaluateAux (ctx : Ctx) (runAct : RAction → M AssignData)
    (evalRec : List RMech → M SPFResult) (addrOpt : Option IPAddr) :
    List RMech → M SPFResult
  | [] => pure (mkRes .Neutral "")
  | m :: rest => do
    let m ← (if ctx.opts.prefetch then M.pure m
      else match m.action with
        | some a => do
            let d ← runAct a
            M.pure (m.assign d)
        | Option.none => M.pure m)
    let m ← (if m.type = "include" then
        match m.includes with
        | some l => do
            let ev ← evalRec l
            M.pure (m.withEvaluated (some ev))
        | Option.none => throwRes (.plain "Cannot read properties of undefined (reading length)")
      else M.pure m)
    let b ← matchM ctx m addrOpt
    if b then buildMatchResult m m.evaluated
    else evaluateAux ctx runAct evalRec addrOpt rest

/-- Embedding of `SPF.evaluate`, by fuel. -/
def evaluate (ctx : Ctx) : Nat → Option IPAddr → List RMech → M SPFResult
  | 0 => fun _ _ => divM
  | fuel + 1 => fun addrOpt =>
      evaluateAux ctx (runActionF ctx (resolveSPF ctx fuel))
        (evaluate ctx fuel addrOpt) addrOpt

/-- Embedding of `SPF.getMechanisms`: resolution failures that are not
typed `SPFResult`s are wrapped as TempError; an empty mechanism list is a
TempError as well. -/
def getMechanisms (ctx : Ctx) (fuel : Nat) (rrtype : RR) : M (List RMech) := do
  let mechanisms ← mcatch (resolveSPF ctx fuel ctx.domain rrtype)
    (fun t => match t with
      | .spf _ => throwRes t
      | .plain msg => throwSpf .TempError msg)
  if mechanisms.length = 0 then throwSpf .TempError "No mechanisms found"
  else pure mechanisms

/-- Embedding of `SPF.check`: input validation short-circuits to None;
otherwise resolve and evaluate, returning thrown `SPFResult`s unchanged
and wrapping any other thrown error as PermError. -/
def check (ctx : Ctx) (fuel : Nat) (ip : String) : M SPFResult :=
  if ctx.env.ipValid ip = false then
    M.pure (mkRes .None "Malformed IP for comparison")
  else if ctx.env.domainValid ctx.domain = false then
    M.pure (mkRes .None "No SPF record can be found on malformed domain")
  else
    let addr := ctx.env.parseIP ip
    mcatch (do
        let mechanisms ← getMechanisms ctx fuel (if addr.kind = "ipv4" then RR.A else RR.AAAA)
        evaluate ctx fuel (some addr) mechanisms)
      (fun t => match t with
        | .spf r => M.pure r
        | .plain msg => M.pure (mkRes .PermError msg))

/-- The module export: a fresh `SPF` instance (hence a fresh context with
the query counter at 0) runs one top-level check. -/
def checkTop (ctx : Ctx) (fuel : Nat) (ip : String) : Res SPFResult × SPFState :=
  check ctx fuel ip initState

/-- The second for-loop of `SPF.evaluateInclude` over the shared working
array, by remaining iterations (`gas`): the live length check, deferred
resolution with the None-skip / typed-rethrow / plain-swallow handler, the
rebinding of the working array to its own tail before recursing into the
include's nested mechanisms, the PermError on an inconclusive nested
result, and the match/return or continue. -/
def evalIncLoopAux (ctx : Ctx) (runAct : RAction → M AssignData)
    (evalIncRec : List RMech → String → Option Nat → M SPFResult)
    (domain : String) : Nat → Nat → Nat → M SPFResult
  | 0 => fun _ _ => divM
  | gas + 1 => fun ref i => do
    let arr ← readArr ref
    if arr.length ≤ i then pure (mkRes .Fail "")
    else do
      let m := arr.getD i (RMech.mk "" Option.none "" Option.none Option.none
        Option.none Option.none Option.none Option.none)
      let step ← (if !ctx.opts.prefetch && m.action.isSome then
          mcatch (match m.action with
                  | some a => do
                      let d ← runAct a
                      M.pure (some (m.assign d))
                  | Option.none => M.pure (some m))
            (fun t => match t with
              | .spf r => if r.result = RKind.None then M.pure Option.none else throwRes t
              | .plain _ => M.pure (some m))
        else M.pure (some m))
      match step with
      | Option.none => evalIncLoopAux ctx runAct evalIncRec domain gas ref (i + 1)
      | some m1 => do
        -- the resolved fields were assigned onto the object held in the slot
        writeArr ref i m1
        let pair ← (if m1.type = "include" then do
            let arrNow ← readArr ref
            -- `includeMechanisms = includeMechanisms.slice(i + 1)`
            let ref' ← allocArr (arrNow.drop (i + 1))
            let ev ← (match m1.includes with
                      | some l => evalIncRec l domain (some ref')
                      | Option.none => throwRes (.plain "Cannot read properties of undefined (reading filter)"))
            M.pure (m1.withEvaluated (some ev), ref')
          else M.pure (m1, ref))
        match pair.1.evaluated with
        | Option.none => throwRes (.plain "Cannot read properties of undefined (reading result)")
        | some ev =>
          if ev.result = RKind.None then
            throwSpf .PermError ("Validation for \"include:" ++ jsStr pair.1.value ++ "\" missed")
          else do
            let b ← matchM ctx pair.1 Option.none
            if b then buildMatchResult pair.1 pair.1.evaluated
            else evalIncLoopAux ctx runAct evalIncRec domain gas pair.2 (i + 1)

/-- Body of `SPF.evaluateInclude`: collect this level's `include`
mechanisms into the (possibly caller-supplied) shared working array, Fail
on an empty working set, Pass on a direct case-insensitive value match,
otherwise run the traversal loop. -/
def evaluateIncludeAux (ctx : Ctx) (runAct : RAction → M AssignData)
    (evalIncRec : List RMech → String → Option Nat → M SPFResult) (gas : Nat)
    (mechanisms : List RMech) (domain : String) (refOpt : Option Nat) : M SPFResult := do
  let ref ← (match refOpt with
             | some r => M.pure r
             | Option.none => allocArr [])
  pushArr ref (mechanisms.filter (fun m => m.type == "include"))
  let arr ← readArr ref
  if arr.length = 0 then pure (mkRes .Fail "")
  -- the first loop: a direct case-insensitive match returns Pass; the loop
  -- has no effects, so first-match equals existence
  else if arr.any (fun m => jsTruthy m.value && strLower (m.value.getD "") == strLower domain) then
    pure (mkRes .Pass "")
  else
    evalIncLoopAux ctx runAct evalIncRec domain gas ref 0

/-- Embedding of `SPF.evaluateInclude`, by fuel. -/
def evaluateInclude (ctx : Ctx) : Nat → List RMech → String → Option Nat → M SPFResult
  | 0 => fun _ _ _ => divM
  | fuel + 1 => fun ms dom refOpt =>
      evaluateIncludeAux ctx (runActionF ctx (resolveSPF ctx fuel))
        (evaluateInclude ctx fuel) (fuel + 1) ms dom refOpt

/-- Embedding of `SPF.checkInclude`. -/
def checkInclude (ctx : Ctx) (fuel : Nat) (requiredDomain : String) : M SPFResult :=
  if ctx.env.domainValid ctx.domain = false then
    M.pure (mkRes .None "No SPF record can be found on malformed domain")
  else
    mcatch (do
        let mechanisms ← getMechanisms ctx fuel RR.A
        evaluateInclude ctx fuel mechanisms requiredDomain Option.none)
      (fun t => match t with
        | .spf r => M.pure r
        | .plain msg => M.pure (mkRes .PermError msg))

/-- `checkInclude` on a fresh `SPF` instance. -/
def checkIncludeTop (ctx : Ctx) (fuel : Nat) (requiredDomain : String) :
    Res SPFResult × SPFState :=
  checkInclude ctx fuel requiredDomain initState

/-- Counter invariant of a computation: the shared DNS query counter never
decreases, and never leaves the budget `maxD` once inside it. -/
def CountInv (maxD : Nat) (x : M α) : Prop :=
  ∀ s, s.queryDNSCount ≤ ((x s).2).queryDNSCount ∧
       (s.queryDNSCount ≤ maxD → ((x s).2).queryDNSCount ≤ maxD)

/-- A computation whose successful value is a mechanism list free of
`redirect` entries. -/
def NoRedirect (x : M (List RMech)) : Prop :=
  ∀ s l s', x s = (Res.ok l, s') → ∀ m ∈ l, m.type ≠ "redirect"

/-- Spec-side composition of the error-propagation policy (section 7 of
the specification): resolve, then evaluate; a typed `SPFResult` failure
from either phase becomes the returned Result unchanged; an untyped
failure is wrapped exactly once, as TempError when raised during
resolution and as PermError when raised during evaluation; an empty
resolved list is the TempError of `getMechanisms`. To be compared with
`check` on well-formed inputs. -/
def checkSpecComposed (ctx : Ctx) (fuel : Nat) (ip : String) (s : SPFState) :
    Res SPFResult × SPFState :=
  let addr := ctx.env.parseIP ip
  let rrtype := if addr.kind = "ipv4" then RR.A else RR.AAAA
  match resolveSPF ctx fuel ctx.domain rrtype s with
  | (.ok l, s₁) =>
      if l.length = 0 then (Res.ok (mkRes .TempError "No mechanisms found"), s₁)
      else
        (match evaluate ctx fuel (some addr) l s₁ with
         | (.ok r, s₂) => (Res.ok r, s₂)
         | (.thr (.spf r), s₂) => (Res.ok r, s₂)
         | (.thr (.plain msg), s₂) => (Res.ok (mkRes .PermError msg), s₂)
         | (.div, s₂) => (Res.div, s₂))
  | (.thr (.spf r), s₁) => (Res.ok r, s₁)
  | (.thr (.plain msg), s₁) => (Res.ok (mkRes .TempError msg), s₁)
  | (.div, s₁) => (Res.div, s₁)

/-- Parser fixture: the parse results the external `spf-parse` module
produces for the record texts used in the concrete test environment
(mirroring the shapes the repository's own test suite stubs). -/
def parseTable (r : String) : Except String Parsed :=
  if r = "v=spf1 ip4:127.0.0.1" then
    .ok { valid := true
          mechanisms := [ { type := "version", value := some "spf1", prefixdesc := "Pass" },
                          { type := "ip4", value := some "127.0.0.1", prefixdesc := "Pass" } ]
          messages := Option.none }
  else if r = "v=spf1 a" then
    .ok { valid := true
          mechanisms := [ { type := "version", value := some "spf1", prefixdesc := "Pass" },
                          { type := "a", value := Option.none, prefixdesc := "Pass" } ]
          messages := Option.none }
  else if r = "v=spf1 include:_spf.example.com" then
    .ok { valid := true
          mechanisms := [ { type := "version", value := some "spf1", prefixdesc := "Pass" },
                          { type := "include", value := some "_spf.example.com", prefixdesc := "Pass" } ]
          messages := Option.none }
  else if r = "v=spf1 +all" then
    .ok { valid := true
          mechanisms := [ { type := "version", value := some "spf1", prefixdesc := "Pass" },
                          { type := "all", value := Option.none, prefixdesc := "Pass" } ]
          messages := Option.none }
  else if r = "v=spf1 -include:x.example.com" then
    .ok { valid := true
          mechanisms := [ { type := "version", value := some "spf1", prefixdesc := "Pass" },
                          { type := "include", value := some "x.example.com", prefixdesc := "Fail" } ]
          messages := Option.none }
  else if r = "v=spf1 include:x.example.com" then
    .ok { valid := true
          mechanisms := [ { type := "version", value := some "spf1", prefixdesc := "Pass" },
                          { type := "include", value := some "x.example.com", prefixdesc := "Pass" } ]
          messages := Option.none }
  else if r = "v=spf1 include:t.example.com -all" then
    .ok { valid := true
          mechanisms := [ { type := "version", value := some "spf1", prefixdesc := "Pass" },
                          { type := "include", value := some "t.example.com", prefixdesc := "Pass" },
                          { type := "all", value := Option.none, prefixdesc := "Fail" } ]
          messages := Option.none }
  else .error "unexpected record"

/-- DNS fixture for the concrete test environment: a table of TXT zones
(as Node's resolver returns them, in chunks), with everything else
reported not found. -/
def txtTable (h : String) : Except String (List (List String)) :=
  if h = "example.com" then .ok [["v=spf1 ip4:127.0.0.1"]]
  else if h = "none.example.com" then .ok []
  else if h = "two.example.com" then .ok [["v=spf1 a"], ["v=spf1 ip4:127.0.0.1"]]
  else if h = "inc.example.com" then .ok [["v=spf1 include:_spf.example.com"]]
  else if h = "_spf.example.com" then .ok [["v=spf1 +all"]]
  else if h = "minus.example.com" then .ok [["v=spf1 -include:x.example.com"]]
  else if h = "plus.example.com" then .ok [["v=spf1 include:x.example.com"]]
  else if h = "x.example.com" then .ok [["v=spf1 include:t.example.com -all"]]
  else .error ("queryTxt ENOTFOUND " ++ h)

/-- The concrete test environment used by witnesses: deterministic DNS and
parser fixtures, `127.0.0.1` the only valid address, every domain except
the literal `bad_domain` valid. -/
def envW : Env where
  dnsTXT := txtTable
  dnsAddr := fun h _ => .error ("queryA ENOTFOUND " ++ h)
  dnsMX := fun h => .error ("queryMx ENOTFOUND " ++ h)
  parsePolicy := parseTable
  ipValid := fun ip => ip = "127.0.0.1"
  domainValid := fun d => d ≠ "bad_domain"
  parseIP := fun ip => { kind := "ipv4", str := ip }
  parseCIDR := fun s =>
    if s = "127.0.0.1/32" then some { kind := "ipv4", text := s } else Option.none
  cidrContains := fun c a => c.text == "127.0.0.1/32" && a.str == "127.0.0.1"

/-- Contexts over the test environment, one per checked domain. -/
def ctxW : Ctx := { env := envW, domain := "example.com", opts := {} }

def ctxBadDomain : Ctx := { env := envW, domain := "bad_domain", opts := {} }

def ctxNone : Ctx := { env := envW, domain := "none.example.com", opts := {} }

def ctxTwo : Ctx := { env := envW, domain := "two.example.com", opts := {} }

def ctxInc : Ctx := { env := envW, domain := "inc.example.com", opts := {} }

def ctxMinus : Ctx := { env := envW, domain := "minus.example.com", opts := {} }

def ctxPlus : Ctx := { env := envW, domain := "plus.example.com", opts := {} }

/-! ## Counter-invariant framework

Compositional lemmas showing that every embedded computation lets the
shared DNS query counter only grow, and keeps it within the budget. -/

theorem countInv_pure (maxD : Nat) (a : α) : CountInv maxD (M.pure a) := by
  intro s
  exact ⟨Nat.le_refl _, fun h => h⟩

theorem countInv_throwRes (maxD : Nat) (t : Thrown) :
    CountInv maxD (throwRes t : M α) := by
  intro s
  exact ⟨Nat.le_refl _, fun h => h⟩

theorem countInv_throwSpf (maxD : Nat) (k : RKind) (msg : String) :
    CountInv maxD (throwSpf k msg : M α) := by
  intro s
  exact ⟨Nat.le_refl _, fun h => h⟩

theorem countInv_divM (maxD : Nat) : CountInv maxD (divM : M α) := by
  intro s
  exact ⟨Nat.le_refl _, fun h => h⟩

theorem countInv_bind {maxD : Nat} {x : M α} {k : α → M β}
    (hx : CountInv maxD x) (hk : ∀ a, CountInv maxD (k a)) :
    CountInv maxD (M.bind x k) := by
  intro s
  have h1 := hx s
  unfold M.bind
  cases hxs : x s with
  | mk r s₁ =>
    rw [hxs] at h1
    cases r with
    | ok a =>
      have h2 := hk a s₁
      exact ⟨Nat.le_trans h1.1 h2.1, fun h => h2.2 (h1.2 h)⟩
    | thr t => exact h1
    | div => exact h1

theorem countInv_mcatch {maxD : Nat} {x : M α} {h : Thrown → M α}
    (hx : CountInv maxD x) (hh : ∀ t, CountInv maxD (h t)) :
    CountInv maxD (mcatch x h) := by
  intro s
  have h1 := hx s
  unfold mcatch
  cases hxs : x s with
  | mk r s₁ =>
    rw [hxs] at h1
    cases r with
    | ok a => exact h1
    | thr t =>
      have h2 := hh t s₁
      exact ⟨Nat.le_trans h1.1 h2.1, fun h => h2.2 (h1.2 h)⟩
    | div => exact h1

theorem countInv_ite {maxD : Nat} (c : Prop) [Decidable c] {x y : M α}
    (hx : CountInv maxD x) (hy : CountInv maxD y) :
    CountInv maxD (if c then x else y) := by
  split
  · exact hx
  · exact hy

theorem countInv_modifySt {maxD : Nat} {f : SPFState → SPFState}
    (hf : ∀ s, (f s).queryDNSCount = s.queryDNSCount) :
    CountInv maxD (modifySt f) := by
  intro s
  unfold modifySt
  rw [hf s]
  exact ⟨Nat.le_refl _, fun h => h⟩

theorem countInv_allocArr (maxD : Nat) (l : List RMech) :
    CountInv maxD (allocArr l) := by
  intro s
  exact ⟨Nat.le_refl _, fun h => h⟩

theorem countInv_readArr (maxD : Nat) (ref : Nat) :
    CountInv maxD (readArr ref) := by
  intro s
  exact ⟨Nat.le_refl _, fun h => h⟩

theorem countInv_pushArr (maxD : Nat) (ref : Nat) (items : List RMech) :
    CountInv maxD (pushArr ref items) := by
  intro s
  exact ⟨Nat.le_refl _, fun h => h⟩

theorem countInv_writeArr (maxD : Nat) (ref i : Nat) (m : RMech) :
    CountInv maxD (writeArr ref i m) := by
  intro s
  exact ⟨Nat.le_refl _, fun h => h⟩

theorem countInv_resolveDNScore (ctx : Ctx) (q : Except String α) (host : String)
    (ll : Option Bool) : CountInv ctx.opts.maxDNS (resolveDNScore ctx q host ll) := by
  intro s
  unfold resolveDNScore
  dsimp only
  split
  · exact ⟨Nat.le_refl _, fun h => h⟩
  · rename_i hnot
    by_cases hll : (ll.isNone || ll == some true) = true
    · cases q with
      | error msg =>
        rw [if_pos hll]
        dsimp only
        by_cases hd : dnsNotFoundTest host msg = true
        · rw [if_pos hd]
          refine ⟨Nat.le_succ _, fun h => ?_⟩
          rw [not_and, not_le] at hnot
          exact hnot hll
        · rw [if_neg hd]
          refine ⟨Nat.le_succ _, fun h => ?_⟩
          rw [not_and, not_le] at hnot
          exact hnot hll
      | ok recs =>
        rw [if_pos hll]
        dsimp only
        refine ⟨Nat.le_succ _, fun h => ?_⟩
        rw [not_and, not_le] at hnot
        exact hnot hll
    · cases q with
      | error msg =>
        rw [if_neg hll]
        dsimp only
        by_cases hd : dnsNotFoundTest host msg = true
        · rw [if_pos hd]
          exact ⟨Nat.le_refl _, fun h => h⟩
        · rw [if_neg hd]
          exact ⟨Nat.le_refl _, fun h => h⟩
      | ok recs =>
        rw [if_neg hll]
        dsimp only
        exact ⟨Nat.le_refl _, fun h => h⟩

theorem countInv_resolveDNStxt (ctx : Ctx) (host : String) (ll : Option Bool) :
    CountInv ctx.opts.maxDNS (resolveDNStxt ctx host ll) :=
  countInv_bind (countInv_resolveDNScore ctx _ host ll)
    (fun _ => countInv_pure _ _)

theorem countInv_resolveDNSaddr (ctx : Ctx) (host : String) (rr : RR) (ll : Option Bool) :
    CountInv ctx.opts.maxDNS (resolveDNSaddr ctx host rr ll) :=
  countInv_resolveDNScore ctx _ host ll

theorem countInv_resolveDNSmx (ctx : Ctx) (host : String) (ll : Option Bool) :
    CountInv ctx.opts.maxDNS (resolveDNSmx ctx host ll) :=
  countInv_resolveDNScore ctx _ host ll

theorem countInv_mxLoop (ctx : Ctx) (rr : RR) (l : List MXrec) :
    CountInv ctx.opts.maxDNS (mxLoop ctx rr l) := by
  induction l with
  | nil => exact countInv_pure _ _
  | cons e rest ih =>
    exact countInv_bind (countInv_resolveDNSaddr ctx _ rr _)
      (fun recs => countInv_bind ih (fun tail => countInv_pure _ _))

theorem countInv_resolveMX (ctx : Ctx) (host : String) (rr : RR) :
    CountInv ctx.opts.maxDNS (resolveMX ctx host rr) := by
  refine countInv_bind (countInv_resolveDNSmx ctx host _) (fun exchanges => ?_)
  refine countInv_ite _ (countInv_throwSpf _ _ _) ?_
  exact countInv_bind (countInv_mxLoop ctx rr exchanges) (fun r => countInv_pure _ _)

theorem countInv_runActionF (ctx : Ctx) {rspf : String → RR → M (List RMech)}
    (hr : ∀ d rr, CountInv ctx.opts.maxDNS (rspf d rr)) (a : RAction) :
    CountInv ctx.opts.maxDNS (runActionF ctx rspf a) := by
  cases a with
  | aRec host rr =>
    exact countInv_bind (countInv_resolveDNSaddr ctx host rr _) (fun recs => countInv_pure _ _)
  | mxRec host rr =>
    exact countInv_bind (countInv_resolveMX ctx host rr) (fun ex => countInv_pure _ _)
  | incRec dom rr =>
    exact countInv_bind (hr dom rr) (fun l => countInv_pure _ _)

theorem countInv_matchM (ctx : Ctx) (m : RMech) (addrOpt : Option IPAddr) :
    CountInv ctx.opts.maxDNS (matchM ctx m addrOpt) := by
  unfold matchM
  repeat' first
    | exact countInv_pure _ _
    | exact countInv_throwRes _ _
    | exact countInv_throwSpf _ _ _
    | split

theorem countInv_buildMatchResult (ctx : Ctx) (m : RMech) (evOpt : Option SPFResult) :
    CountInv ctx.opts.maxDNS (buildMatchResult m evOpt) := by
  unfold buildMatchResult
  apply countInv_bind
  · repeat' first
      | exact countInv_pure _ _
      | exact countInv_throwRes _ _
      | split
  · intro r
    repeat' first
      | exact countInv_pure _ _
      | exact countInv_throwRes _ _
      | split

theorem countInv_resolveMechLoopAux (ctx : Ctx) {rspf : String → RR → M (List RMech)}
    (hr : ∀ d rr, CountInv ctx.opts.maxDNS (rspf d rr))
    (hostname : String) (rrtype : RR) (catchAll : Bool) :
    ∀ ms acc, CountInv ctx.opts.maxDNS
      (resolveMechLoopAux ctx rspf hostname rrtype catchAll ms acc) := by
  intro ms
  induction ms with
  | nil => intro acc; exact countInv_pure _ _
  | cons m rest ih =>
    intro acc
    simp only [resolveMechLoopAux]
    repeat' first
      | exact ih _
      | exact (ih _) _
      | exact countInv_pure _ _
      | exact (countInv_pure _ _) _
      | exact countInv_throwRes _ _
      | exact (countInv_throwRes _ _) _
      | exact countInv_throwSpf _ _ _
      | exact (countInv_throwSpf _ _ _) _
      | apply countInv_bind (hr _ _)
      | apply countInv_bind (countInv_runActionF ctx hr _)
      | apply countInv_bind
      | split
      | intro _

theorem countInv_resolveSPFAux (ctx : Ctx) {rspf : String → RR → M (List RMech)}
    (hr : ∀ d rr, CountInv ctx.opts.maxDNS (rspf d rr))
    (hostname : String) (rrtype : RR) :
    CountInv ctx.opts.maxDNS (resolveSPFAux ctx rspf hostname rrtype) := by
  unfold resolveSPFAux
  apply countInv_bind (countInv_resolveDNStxt ctx hostname _)
  intro strs
  dsimp only
  repeat' first
    | exact countInv_resolveMechLoopAux ctx hr hostname rrtype _ _ _
    | exact (countInv_resolveMechLoopAux ctx hr hostname rrtype _ _ _) _
    | exact countInv_pure _ _
    | exact (countInv_pure _ _) _
    | exact countInv_throwRes _ _
    | exact (countInv_throwRes _ _) _
    | exact countInv_throwSpf _ _ _
    | exact (countInv_throwSpf _ _ _) _
    | apply countInv_bind (countInv_modifySt (by intro s; rfl))
    | split
    | intro _

theorem countInv_resolveSPF (ctx : Ctx) (fuel : Nat) (hostname : String) (rrtype : RR) :
    CountInv ctx.opts.maxDNS (resolveSPF ctx fuel hostname rrtype) := by
  induction fuel generalizing hostname rrtype with
  | zero => exact countInv_divM _
  | succ f ih =>
    exact countInv_resolveSPFAux ctx (fun d rr => ih d rr) hostname rrtype

theorem countInv_evaluateAux (ctx : Ctx) {runAct : RAction → M AssignData}
    {evalRec : List RMech → M SPFResult}
    (ha : ∀ a, CountInv ctx.opts.maxDNS (runAct a))
    (he : ∀ l, CountInv ctx.opts.maxDNS (evalRec l)) (addrOpt : Option IPAddr) :
    ∀ ms, CountInv ctx.opts.maxDNS (evaluateAux ctx runAct evalRec addrOpt ms) := by
  intro ms
  induction ms with
  | nil => exact countInv_pure _ _
  | cons m rest ih =>
    simp only [evaluateAux]
    repeat' first
      | exact ih
      | exact ih _
      | exact countInv_pure _ _
      | exact (countInv_pure _ _) _
      | exact countInv_throwRes _ _
      | exact (countInv_throwRes _ _) _
      | exact countInv_matchM ctx _ _
      | exact (countInv_matchM ctx _ _) _
      | exact countInv_buildMatchResult ctx _ _
      | exact (countInv_buildMatchResult ctx _ _) _
      | apply countInv_bind (ha _)
      | apply countInv_bind (he _)
      | apply countInv_bind
      | split
      | intro _

theorem countInv_evaluate (ctx : Ctx) (fuel : Nat) (addrOpt : Option IPAddr)
    (ms : List RMech) : CountInv ctx.opts.maxDNS (evaluate ctx fuel addrOpt ms) := by
  induction fuel generalizing addrOpt ms with
  | zero => exact countInv_divM _
  | succ f ih =>
    exact countInv_evaluateAux ctx
      (countInv_runActionF ctx (fun d rr => countInv_resolveSPF ctx f d rr))
      (fun l => ih addrOpt l) addrOpt ms

theorem countInv_getMechanisms (ctx : Ctx) (fuel : Nat) (rrtype : RR) :
    CountInv ctx.opts.maxDNS (getMechanisms ctx fuel rrtype) := by
  unfold getMechanisms
  apply countInv_bind
  · apply countInv_mcatch (countInv_resolveSPF ctx fuel _ rrtype)
    intro t
    repeat' first
      | exact countInv_throwRes _ _
      | exact countInv_throwSpf _ _ _
      | split
  · intro l
    exact countInv_ite _ (countInv_throwSpf _ _ _) (countInv_pure _ _)

theorem countInv_check (ctx : Ctx) (fuel : Nat) (ip : String) :
    CountInv ctx.opts.maxDNS (check ctx fuel ip) := by
  unfold check
  repeat' first
    | exact countInv_pure _ _
    | exact (countInv_pure _ _) _
    | apply countInv_mcatch
    | apply countInv_bind (countInv_getMechanisms ctx fuel _)
    | exact countInv_evaluate ctx fuel _ _
    | exact (countInv_evaluate ctx fuel _ _) _
    | split
    | intro _

/-- State preservation is closed under sequencing. -/
theorem statePres_bind {x : M α} {k : α → M β}
    (hx : ∀ s, (x s).2 = s) (hk : ∀ a s, (k a s).2 = s) :
    ∀ s, (M.bind x k s).2 = s := by
  intro s
  unfold M.bind
  cases hxs : x s with
  | mk r s₂ =>
    have h2 : s₂ = s := by
      have h := hx s
      rw [hxs] at h
      exact h
    cases r with
    | ok a =>
      dsimp only
      rw [h2]
      exact hk a s
    | thr t => exact h2
    | div => exact h2

/-- The unbudgeted variant of a DNS lookup (`lookupLimit = false`) leaves
the whole per-check state untouched, on success and failure alike. -/
theorem resolveDNScore_nolimit_state (ctx : Ctx) (q : Except String α)
    (host : String) (s : SPFState) :
    (resolveDNScore ctx q host (some false) s).2 = s := by
  unfold resolveDNScore
  dsimp only
  rw [if_neg (by simp)]
  cases q with
  | error msg =>
    dsimp only
    by_cases hd : dnsNotFoundTest host msg = true
    · rw [if_pos hd]; rfl
    · rw [if_neg hd]; rfl
  | ok recs => rfl

/-- The per-exchange address-lookup loop of `resolveMX` leaves the whole
per-check state untouched: none of those lookups is budgeted. -/
theorem mxLoop_state (ctx : Ctx) (rr : RR) (l : List MXrec) :
    ∀ s, (mxLoop ctx rr l s).2 = s := by
  induction l with
  | nil => intro s; rfl
  | cons e rest ih =>
    exact statePres_bind
      (fun s => resolveDNScore_nolimit_state ctx (ctx.env.dnsAddr e.exchange rr) e.exchange s)
      (fun recs => statePres_bind ih (fun tail s => rfl))

/-- C1: within one top-level check the DNS query counter starts at 0, only
ever increases and never exceeds `options.maxDNS`; once the shared counter
has reached `maxDNS`, a budgeted lookup attempt fails with PermError
"Limit of DNS lookups reached" with the state untouched and without
consulting the resolver (the outcome is the same whatever the resolver
would have answered); the counter is the single one threaded through every
recursive resolution/evaluation branch of `check`. -/
theorem dns_counter_invariant (ctx : Ctx) (fuel : Nat) (ip host : String)
    (q₁ q₂ : Except String (List String)) (s : SPFState)
    (hat : ctx.opts.maxDNS ≤ s.queryDNSCount) :
    (resolveDNScore ctx q₁ host Option.none s =
       (Res.thr (.spf (mkRes .PermError "Limit of DNS lookups reached")), s)
     ∧ resolveDNScore ctx q₁ host Option.none s =
       resolveDNScore ctx q₂ host Option.none s)
    ∧ (checkTop ctx fuel ip).2.queryDNSCount ≤ ctx.opts.maxDNS
    ∧ (∀ s₀ : SPFState, s₀.queryDNSCount ≤ (check ctx fuel ip s₀).2.queryDNSCount) := by
  refine ⟨⟨?_, ?_⟩, ?_, ?_⟩
  · unfold resolveDNScore
    dsimp only
    rw [if_pos ⟨by simp, hat⟩]
  · unfold resolveDNScore
    dsimp only
    rw [if_pos ⟨by simp, hat⟩, if_pos ⟨by simp, hat⟩]
  · exact (countInv_check ctx fuel ip initState).2 (Nat.zero_le _)
  · intro s₀
    exact (countInv_check ctx fuel ip s₀).1

/-- Witness for C1 at a concrete at-limit state and environment. -/
theorem dns_counter_invariant_witness :
    ctxW.opts.maxDNS ≤ (10 : Nat) ∧
    (resolveDNScore ctxW (Except.ok ["r"]) "example.com" Option.none
        { queryDNSCount := 10, warnings := [], arrays := [] } =
      (Res.thr (.spf (mkRes .PermError "Limit of DNS lookups reached")),
        { queryDNSCount := 10, warnings := [], arrays := [] })) ∧
    (checkTop ctxW 3 "127.0.0.1").2.queryDNSCount ≤ ctxW.opts.maxDNS :=
  ⟨by decide,
   (dns_counter_invariant ctxW 3 "127.0.0.1" "example.com" (Except.ok ["r"])
      (Except.error "boom") { queryDNSCount := 10, warnings := [], arrays := [] }
      (by decide)).1.1,
   (dns_counter_invariant ctxW 3 "127.0.0.1" "example.com" (Except.ok ["r"])
      (Except.error "boom") { queryDNSCount := 10, warnings := [], arrays := [] }
      (by decide)).2.1⟩

/-- C10: a budgeted DNS lookup that passes the pre-check increments the
query counter by exactly one on completion, whether the lookup succeeds or
fails; a lookup issued with the budget flag off (`lookupLimit = false`)
never changes the counter, in particular none of the per-exchange address
lookups of `resolveMX` does. -/
theorem dns_counter_increment (ctx : Ctx) (q : Except String (List String))
    (host : String) (s : SPFState) (hlt : s.queryDNSCount < ctx.opts.maxDNS) :
    ((resolveDNScore ctx q host Option.none s).2.queryDNSCount = s.queryDNSCount + 1)
    ∧ ((resolveDNScore ctx q host (some true) s).2.queryDNSCount = s.queryDNSCount + 1)
    ∧ (∀ s' : SPFState,
        (resolveDNScore ctx q host (some false) s').2.queryDNSCount = s'.queryDNSCount)
    ∧ (∀ (rr : RR) (exchanges : List MXrec) (s' : SPFState),
        (mxLoop ctx rr exchanges s').2.queryDNSCount = s'.queryDNSCount) := by
  refine ⟨?_, ?_, ?_, ?_⟩
  · unfold resolveDNScore
    dsimp only
    rw [if_neg (by intro h; exact absurd h.2 (by omega))]
    cases q with
    | error msg =>
      dsimp only
      by_cases hd : dnsNotFoundTest host msg = true
      · rw [if_pos hd]; rfl
      · rw [if_neg hd]; rfl
    | ok recs => rfl
  · unfold resolveDNScore
    dsimp only
    rw [if_neg (by intro h; exact absurd h.2 (by omega))]
    cases q with
    | error msg =>
      dsimp only
      by_cases hd : dnsNotFoundTest host msg = true
      · rw [if_pos hd]; rfl
      · rw [if_neg hd]; rfl
    | ok recs => rfl
  · intro s'
    rw [resolveDNScore_nolimit_state]
  · intro rr exchanges s'
    rw [mxLoop_state]

/-- Witness for C10 at a concrete under-budget state. -/
theorem dns_counter_increment_witness :
    initState.queryDNSCount < ctxW.opts.maxDNS ∧
    (resolveDNScore ctxW
        (Except.error "queryTxt ESERVFAIL example.com" : Except String (List String))
        "example.com" Option.none initState).2.queryDNSCount =
      initState.queryDNSCount + 1 :=
  ⟨by decide,
   (dns_counter_increment ctxW
      (Except.error "queryTxt ESERVFAIL example.com" : Except String (List String))
      "example.com" initState (by decide)).1⟩

/-- C2: a malformed client IP short-circuits `check` to the None result
"Malformed IP for comparison" and a malformed domain to the None result
"No SPF record can be found on malformed domain", in both cases with the
state (and thus the DNS query counter) completely untouched and without
the resolver ever being consulted (the environment's DNS tables are
arbitrary). -/
theorem malformed_input_none (ctx : Ctx) (fuel : Nat) (ip₁ ip₂ : String) (s : SPFState)
    (h1 : ctx.env.ipValid ip₁ = false)
    (h2 : ctx.env.ipValid ip₂ = true)
    (h3 : ctx.env.domainValid ctx.domain = false) :
    check ctx fuel ip₁ s = (Res.ok (mkRes .None "Malformed IP for comparison"), s)
    ∧ check ctx fuel ip₂ s =
        (Res.ok (mkRes .None "No SPF record can be found on malformed domain"), s) := by
  constructor
  · unfold check
    rw [if_pos h1]
    rfl
  · unfold check
    rw [if_neg (by rw [h2]; simp), if_pos h3]
    rfl

/-- Witness for C2 on the concrete environment: an invalid IP string and
an invalid checked domain. -/
theorem malformed_input_none_witness :
    (envW.ipValid "127.0.0.256" = false ∧ envW.ipValid "127.0.0.1" = true
      ∧ envW.domainValid "bad_domain" = false) ∧
    check ctxBadDomain 5 "127.0.0.256" initState =
      (Res.ok (mkRes .None "Malformed IP for comparison"), initState) ∧
    check ctxBadDomain 5 "127.0.0.1" initState =
      (Res.ok (mkRes .None "No SPF record can be found on malformed domain"), initState) :=
  ⟨⟨by decide, by decide, by decide⟩,
   (malformed_input_none ctxBadDomain 5 "127.0.0.256" "127.0.0.1" initState
      (by decide) (by decide) (by decide)).1,
   (malformed_input_none ctxBadDomain 5 "127.0.0.256" "127.0.0.1" initState
      (by decide) (by decide) (by decide)).2⟩

theorem patCharMatches_self (c : Char) : patCharMatches c c = true := by
  unfold patCharMatches
  simp

theorem patMatchesFront_self (l : List Char) : patMatchesFront l l = true := by
  induction l with
  | nil => rfl
  | cons c cs ih =>
    unfold patMatchesFront
    rw [patCharMatches_self, ih]
    rfl

theorem patOccurs_self (l : List Char) : patOccurs l l = true := by
  cases l with
  | nil => rfl
  | cons c cs =>
    unfold patOccurs
    rw [patMatchesFront_self]
    rfl

/-- C6 (amended): a failed DNS lookup maps to the None result "Domain does
not exists" exactly when the resolver's error text contains an occurrence
of the TXT-query pattern `queryTxt (ENOTFOUND|ENODATA) <hostname>`; any
other failure text (in particular a not-found report from an A/AAAA/MX
query, whose Node error text names its own query type) maps to TempError
carrying the underlying message. The counter is incremented either way,
and Node's own TXT not-found texts do satisfy the pattern. -/
theorem dns_error_mapping (ctx : Ctx) (msg host : String) (s : SPFState)
    (hlt : s.queryDNSCount < ctx.opts.maxDNS) :
    resolveDNScore ctx (Except.error msg : Except String (List String)) host
        Option.none s =
      (Res.thr (.spf (if dnsNotFoundTest host msg then
                        mkRes .None "Domain does not exists"
                      else mkRes .TempError msg)),
       { s with queryDNSCount := s.queryDNSCount + 1 })
    ∧ dnsNotFoundTest host ("queryTxt ENOTFOUND " ++ host) = true
    ∧ dnsNotFoundTest host ("queryTxt ENODATA " ++ host) = true := by
  refine ⟨?_, ?_, ?_⟩
  · unfold resolveDNScore
    dsimp only
    rw [if_neg (by intro h; exact absurd h.2 (by omega))]
    by_cases hd : dnsNotFoundTest host msg = true
    · rw [if_pos hd, if_pos hd]; rfl
    · rw [if_neg hd, if_neg hd]; rfl
  · unfold dnsNotFoundTest
    rw [patOccurs_self]
    rfl
  · unfold dnsNotFoundTest
    rw [patOccurs_self]
    simp

/-- Counterexample to C6 as stated: an A-record lookup whose resolver
reports name-not-found for the queried name (Node's error text
`queryA ENOTFOUND a.example.com`) does not produce the None outcome the
claim requires for every record type; the gateway returns TempError
because the hard-coded pattern only recognizes TXT-query error texts. -/
theorem dns_notfound_counterexample :
    (resolveDNScore ctxW
        (Except.error "queryA ENOTFOUND a.example.com" : Except String (List String))
        "a.example.com" Option.none initState).1 =
      Res.thr (.spf (mkRes .TempError "queryA ENOTFOUND a.example.com"))
    ∧ (mkRes .TempError "queryA ENOTFOUND a.example.com").result ≠ RKind.None := by
  constructor
  · decide
  · decide

/-- Witness for the amended C6 at a concrete under-budget state and a
TXT-style not-found error text. -/
theorem dns_error_mapping_witness :
    initState.queryDNSCount < ctxW.opts.maxDNS ∧
    resolveDNScore ctxW
        (Except.error "queryTxt ENOTFOUND h.example.com" : Except String (List String))
        "h.example.com" Option.none initState =
      (Res.thr (.spf (if dnsNotFoundTest "h.example.com" "queryTxt ENOTFOUND h.example.com"
                      then mkRes .None "Domain does not exists"
                      else mkRes .TempError "queryTxt ENOTFOUND h.example.com")),
       { initState with queryDNSCount := initState.queryDNSCount + 1 }) :=
  ⟨by decide,
   (dns_error_mapping ctxW "queryTxt ENOTFOUND h.example.com" "h.example.com"
      initState (by decide)).1⟩

theorem bind_def (x : M α) (k : α → M β) : x >>= k = M.bind x k := rfl

theorem bind_app (x : M α) (k : α → M β) (s : SPFState) :
    M.bind x k s =
      (match x s with
       | (.ok a, s') => k a s'
       | (.thr t, s') => (.thr t, s')
       | (.div, s') => (.div, s')) := rfl

theorem mcatch_app (x : M α) (h : Thrown → M α) (s : SPFState) :
    mcatch x h s =
      (match x s with
       | (.thr t, s') => h t s'
       | r => r) := rfl

/-- A successful budgeted TXT lookup: the chunks are joined and the
counter is incremented once. -/
theorem resolveDNStxt_ok (ctx : Ctx) (host : String) (s : SPFState)
    (chunks : List (List String))
    (htxt : ctx.env.dnsTXT host = .ok chunks)
    (hlt : s.queryDNSCount < ctx.opts.maxDNS) :
    resolveDNStxt ctx host Option.none s =
      (Res.ok (chunks.map String.join),
       { s with queryDNSCount := s.queryDNSCount + 1 }) := by
  have h1 : resolveDNScore ctx (ctx.env.dnsTXT host) host Option.none s =
      (Res.ok chunks, { s with queryDNSCount := s.queryDNSCount + 1 }) := by
    rw [htxt]
    unfold resolveDNScore
    dsimp only
    rw [if_neg (by intro h; exact absurd h.2 (by omega))]
    rfl
  unfold resolveDNStxt
  rw [bind_def, bind_app, h1]
  rfl

/-- The front section of `resolveSPF`: with the TXT answer in hand, zero
qualifying records throw None and more than one throw PermError, either
way right after the single TXT lookup. -/
theorem resolveSPF_filter_outcomes (ctx : Ctx) (fuel : Nat) (host : String)
    (rr : RR) (s : SPFState) (chunks : List (List String))
    (htxt : ctx.env.dnsTXT host = .ok chunks)
    (hlt : s.queryDNSCount < ctx.opts.maxDNS) :
    (((chunks.map String.join).filter
        (fun r => strStartsWith r ("v=spf" ++ toString ctx.opts.version ++ " "))).length = 0 →
      resolveSPF ctx (fuel + 1) host rr s =
        (Res.thr (.spf (mkRes .None "Assume that the domain makes no SPF declarations")),
         { s with queryDNSCount := s.queryDNSCount + 1 }))
    ∧ (1 < ((chunks.map String.join).filter
        (fun r => strStartsWith r ("v=spf" ++ toString ctx.opts.version ++ " "))).length →
      resolveSPF ctx (fuel + 1) host rr s =
        (Res.thr (.spf (mkRes .PermError "There should be exactly one record remaining")),
         { s with queryDNSCount := s.queryDNSCount + 1 })) := by
  have hspf : resolveSPF ctx (fuel + 1) host rr =
      resolveSPFAux ctx (resolveSPF ctx fuel) host rr := rfl
  constructor <;> intro hlen
  · rw [hspf]
    unfold resolveSPFAux
    rw [bind_def, bind_app, resolveDNStxt_ok ctx host s chunks htxt hlt]
    dsimp only
    rw [if_pos hlen]
    rfl
  · rw [hspf]
    unfold resolveSPFAux
    rw [bind_def, bind_app, resolveDNStxt_ok ctx host s chunks htxt hlt]
    dsimp only
    rw [if_neg (by omega), if_pos hlen]
    rfl

/-- Characterization of `getMechanisms` in terms of `resolveSPF`: typed
failures pass through, plain failures are wrapped as TempError, and an
empty successful list becomes the TempError "No mechanisms found". -/
theorem getMechanisms_spec (ctx : Ctx) (fuel : Nat) (rr : RR) (s : SPFState) :
    getMechanisms ctx fuel rr s =
      (match resolveSPF ctx fuel ctx.domain rr s with
       | (.ok l, s₁) =>
           if l.length = 0 then
             (Res.thr (.spf (mkRes .TempError "No mechanisms found")), s₁)
           else (Res.ok l, s₁)
       | (.thr (.spf r), s₁) => (Res.thr (.spf r), s₁)
       | (.thr (.plain m), s₁) => (Res.thr (.spf (mkRes .TempError m)), s₁)
       | (.div, s₁) => (Res.div, s₁)) := by
  unfold getMechanisms
  rw [bind_def, bind_app, mcatch_app]
  cases hres : resolveSPF ctx fuel ctx.domain rr s with
  | mk r s₁ =>
    cases r with
    | ok l =>
      dsimp only
      by_cases hlen : l.length = 0
      · rw [if_pos hlen, if_pos hlen]
        rfl
      · rw [if_neg hlen, if_neg hlen]
        rfl
    | thr t => cases t <;> rfl
    | div => rfl

/-- On well-formed inputs, `check` equals the spec-side composition of the
propagation policy, `checkSpecComposed`. -/
theorem check_eq_composed (ctx : Ctx) (fuel : Nat) (ip : String) (s : SPFState)
    (hip : ctx.env.ipValid ip = true) (hdom : ctx.env.domainValid ctx.domain = true) :
    check ctx fuel ip s = checkSpecComposed ctx fuel ip s := by
  unfold check checkSpecComposed
  rw [if_neg (by rw [hip]; simp), if_neg (by rw [hdom]; simp)]
  dsimp only
  rw [mcatch_app, bind_def, bind_app, getMechanisms_spec]
  cases hres : resolveSPF ctx fuel ctx.domain
      (if (ctx.env.parseIP ip).kind = "ipv4" then RR.A else RR.AAAA) s with
  | mk r s₁ =>
    cases r with
    | ok l =>
      dsimp only
      by_cases hlen : l.length = 0
      · rw [if_pos hlen, if_pos hlen]
        rfl
      · rw [if_neg hlen, if_neg hlen]
        dsimp only
        cases hev : evaluate ctx fuel (some (ctx.env.parseIP ip)) l s₁ with
        | mk r₂ s₂ =>
          cases r₂ with
          | ok rr => rfl
          | thr t => cases t <;> rfl
          | div => rfl
    | thr t => cases t <;> rfl
    | div => rfl

/-- C5: after the single budgeted TXT lookup for the checked domain, the
records are filtered to those starting with the exact version tag
`v=spf<version> `; zero qualifying records make the whole check return the
None result "Assume that the domain makes no SPF declarations", and more
than one make it return the PermError "There should be exactly one record
remaining" — in both cases with the query counter at exactly 1. -/
theorem txt_record_count_outcomes (ctx : Ctx) (fuel : Nat) (ip : String)
    (chunks : List (List String))
    (hip : ctx.env.ipValid ip = true)
    (hdom : ctx.env.domainValid ctx.domain = true)
    (htxt : ctx.env.dnsTXT ctx.domain = .ok chunks)
    (hmax : 0 < ctx.opts.maxDNS) :
    (((chunks.map String.join).filter
        (fun r => strStartsWith r ("v=spf" ++ toString ctx.opts.version ++ " "))).length = 0 →
      checkTop ctx (fuel + 1) ip =
        (Res.ok (mkRes .None "Assume that the domain makes no SPF declarations"),
         { queryDNSCount := 1, warnings := [], arrays := [] }))
    ∧ (1 < ((chunks.map String.join).filter
        (fun r => strStartsWith r ("v=spf" ++ toString ctx.opts.version ++ " "))).length →
      checkTop ctx (fuel + 1) ip =
        (Res.ok (mkRes .PermError "There should be exactly one record remaining"),
         { queryDNSCount := 1, warnings := [], arrays := [] })) := by
  have hcc := check_eq_composed ctx (fuel + 1) ip initState hip hdom
  have hro := resolveSPF_filter_outcomes ctx fuel ctx.domain
      (if (ctx.env.parseIP ip).kind = "ipv4" then RR.A else RR.AAAA) initState chunks htxt hmax
  constructor <;> intro hlen
  · have h1 := hro.1 hlen
    show check ctx (fuel + 1) ip initState = _
    rw [hcc]
    unfold checkSpecComposed
    dsimp only
    rw [h1]
    rfl
  · have h1 := hro.2 hlen
    show check ctx (fuel + 1) ip initState = _
    rw [hcc]
    unfold checkSpecComposed
    dsimp only
    rw [h1]
    rfl

/-- Witness for C5 on the concrete environment: `none.example.com` has no
qualifying TXT record, `two.example.com` has two. -/
theorem txt_record_count_outcomes_witness :
    (envW.dnsTXT "none.example.com" = Except.ok [] ∧
     checkTop ctxNone 3 "127.0.0.1" =
       (Res.ok (mkRes .None "Assume that the domain makes no SPF declarations"),
        { queryDNSCount := 1, warnings := [], arrays := [] })) ∧
    (envW.dnsTXT "two.example.com" = Except.ok [["v=spf1 a"], ["v=spf1 ip4:127.0.0.1"]] ∧
     checkTop ctxTwo 3 "127.0.0.1" =
       (Res.ok (mkRes .PermError "There should be exactly one record remaining"),
        { queryDNSCount := 1, warnings := [], arrays := [] })) :=
  ⟨⟨rfl,
    (txt_record_count_outcomes ctxNone 2 "127.0.0.1" []
       (by decide) (by decide) rfl (by decide)).1 (by decide)⟩,
   ⟨rfl,
    (txt_record_count_outcomes ctxTwo 2 "127.0.0.1" [["v=spf1 a"], ["v=spf1 ip4:127.0.0.1"]]
       (by decide) (by decide) rfl (by decide)).2 (by decide)⟩⟩

/-- C9: on well-formed inputs `check` equals the spec-side composition of
the propagation policy (`checkSpecComposed`): a typed `SPFResult` thrown
anywhere inside resolution or evaluation becomes the returned Result
unchanged, an untyped error is wrapped exactly once — TempError at the
resolution boundary, PermError at the evaluation boundary — and a check
never lets a thrown value escape to the caller. -/
theorem error_propagation (ctx : Ctx) (fuel : Nat) (ip : String) (s : SPFState)
    (hip : ctx.env.ipValid ip = true)
    (hdom : ctx.env.domainValid ctx.domain = true) :
    check ctx fuel ip s = checkSpecComposed ctx fuel ip s
    ∧ (∀ (ip' : String) (s' : SPFState) (t : Thrown),
        (check ctx fuel ip' s').1 ≠ Res.thr t) := by
  constructor
  · exact check_eq_composed ctx fuel ip s hip hdom
  · intro ip' s' t
    unfold check
    split
    · intro h
      simp [M.pure] at h
    · split
      · intro h
        simp [M.pure] at h
      · rw [mcatch_app, bind_def]
        cases hx : M.bind (getMechanisms ctx fuel
            (if (ctx.env.parseIP ip').kind = "ipv4" then RR.A else RR.AAAA))
            (fun mechanisms => evaluate ctx fuel (some (ctx.env.parseIP ip')) mechanisms) s' with
        | mk r s₂ =>
          cases r with
          | ok a =>
            intro h
            simp at h
          | thr t' =>
            cases t' with
            | spf r =>
              intro h
              simp [M.pure] at h
            | plain m =>
              intro h
              simp [M.pure] at h
          | div =>
            intro h
            simp at h

/-- Witness for C9 at the concrete environment. -/
theorem error_propagation_witness :
    (envW.ipValid "127.0.0.1" = true ∧ envW.domainValid "example.com" = true) ∧
    check ctxW 3 "127.0.0.1" initState = checkSpecComposed ctxW 3 "127.0.0.1" initState :=
  ⟨⟨by decide, by decide⟩,
   (error_propagation ctxW 3 "127.0.0.1" initState (by decide) (by decide)).1⟩

theorem pure_ok_inv {a : α} {s : SPFState} {b : α} {s' : SPFState}
    (h : M.pure a s = (Res.ok b, s')) : a = b ∧ s = s' := by
  unfold M.pure at h
  injection h with h1 h2
  exact ⟨Res.ok.inj h1, h2⟩

theorem bind_ok_inv {x : M α} {k : α → M β} {s : SPFState} {b : β} {s' : SPFState}
    (h : M.bind x k s = (Res.ok b, s')) :
    ∃ a s₁, x s = (Res.ok a, s₁) ∧ k a s₁ = (Res.ok b, s') := by
  unfold M.bind at h
  cases hx : x s with
  | mk r s₁ =>
    rw [hx] at h
    cases r with
    | ok a => exact ⟨a, s₁, rfl, h⟩
    | thr t => simp at h
    | div => simp at h

theorem bind_congr {x : M α} {k k' : α → M β} (h : ∀ a, k a = k' a) :
    M.bind x k = M.bind x k' := by
  funext s
  unfold M.bind
  cases x s with
  | mk r s₁ => cases r <;> simp [h]

/-- The `_.assign` merge never changes the mechanism's type. -/
theorem assign_type (m : RMech) (d : AssignData) : (m.assign d).type = m.type := by
  cases m
  cases d <;> rfl

/-- A successful prefetch step (`prefetch && mechanism.resolve` in
`resolveSPF`'s loop) only fills in resolved data: the mechanism type is
unchanged. -/
theorem prefetchStep_ok_type (ctx : Ctx) (rspf : String → RR → M (List RMech))
    (rm : RMech) {s : SPFState} {rm' : RMech} {s' : SPFState}
    (h : (if ctx.opts.prefetch then
            match rm.action with
            | some a => do
                let d ← runActionF ctx rspf a
                M.pure (rm.assign d)
            | Option.none => M.pure rm
          else M.pure rm) s = (Res.ok rm', s')) :
    rm'.type = rm.type := by
  by_cases hp : ctx.opts.prefetch = true
  · rw [if_pos hp] at h
    cases ha : rm.action with
    | none =>
      rw [ha] at h
      have h2 := pure_ok_inv h
      rw [← h2.1]
    | some a =>
      rw [ha] at h
      dsimp only at h
      rw [bind_def] at h
      obtain ⟨d, s₁, _, h2⟩ := bind_ok_inv h
      have h3 := pure_ok_inv h2
      rw [← h3.1]
      exact assign_type rm d
  · rw [if_neg hp] at h
    have h2 := pure_ok_inv h
    rw [← h2.1]

/-- The mechanism loop never emits a `redirect` entry: it either skips the
modifier or splices the (inductively redirect-free) resolution of its
target, and every entry it pushes keeps its parsed non-redirect type. -/
theorem noRedirect_resolveMechLoopAux (ctx : Ctx) {rspf : String → RR → M (List RMech)}
    (hr : ∀ d rr, NoRedirect (rspf d rr)) (hostname : String) (rrtype : RR)
    (catchAll : Bool) :
    ∀ ms acc, (∀ m ∈ acc, m.type ≠ "redirect") →
      NoRedirect (resolveMechLoopAux ctx rspf hostname rrtype catchAll ms acc) := by
  intro ms
  induction ms with
  | nil =>
    intro acc hacc s l s' h
    obtain ⟨h1, _⟩ := pure_ok_inv h
    rw [← h1]
    exact hacc
  | cons m rest ih =>
    intro acc hacc s l s' h
    simp only [resolveMechLoopAux] at h
    by_cases hm : m.type = "redirect"
    · rw [if_pos hm] at h
      by_cases hc : catchAll = true
      · rw [if_pos hc] at h
        exact ih acc hacc s l s' h
      · rw [if_neg hc] at h
        rw [bind_def] at h
        obtain ⟨sub, s₁, hx, hk⟩ := bind_ok_inv h
        have hsub : ∀ x ∈ sub, x.type ≠ "redirect" := hr _ _ s sub s₁ hx
        refine ih (acc ++ sub) ?_ s₁ l s' hk
        intro x hx2
        rcases List.mem_append.mp hx2 with h1 | h2
        · exact hacc x h1
        · exact hsub x h2
    · rw [if_neg hm] at h
      rw [bind_def] at h
      obtain ⟨va, s₁, hva, h⟩ := bind_ok_inv h
      rw [bind_def] at h
      obtain ⟨rm', s₂, hrm, h⟩ := bind_ok_inv h
      have htype : rm'.type = m.type := prefetchStep_ok_type ctx rspf _ hrm
      by_cases hall : m.type = "all"
      · rw [if_pos hall] at h
        obtain ⟨h1, _⟩ := pure_ok_inv h
        rw [← h1]
        intro x hx2
        rcases List.mem_append.mp hx2 with h1 | h2
        · exact hacc x h1
        · have hx3 : x = rm' := List.mem_singleton.mp h2
          rw [hx3, htype]
          exact hm
      · rw [if_neg hall] at h
        refine ih (acc ++ [rm']) ?_ s₂ l s' h
        intro x hx2
        rcases List.mem_append.mp hx2 with h1 | h2
        · exact hacc x h1
        · have hx3 : x = rm' := List.mem_singleton.mp h2
          rw [hx3, htype]
          exact hm

theorem noRedirect_bind {x : M α} {k : α → M (List RMech)}
    (hk : ∀ a, NoRedirect (k a)) : NoRedirect (M.bind x k) := by
  intro s l s' h
  obtain ⟨a, s₁, _, hka⟩ := bind_ok_inv h
  exact hk a s₁ l s' hka

theorem noRedirect_throwRes (t : Thrown) : NoRedirect (throwRes t) := by
  intro s l s' h
  simp [throwRes] at h

theorem noRedirect_throwSpf (k : RKind) (msg : String) :
    NoRedirect (throwSpf k msg) :=
  noRedirect_throwRes _

theorem noRedirect_divM : NoRedirect divM := by
  intro s l s' h
  simp [divM] at h

/-- No list successfully produced by `resolveSPF` contains a `redirect`
entry. -/
theorem noRedirect_resolveSPF (ctx : Ctx) (fuel : Nat) (hostname : String)
    (rrtype : RR) : NoRedirect (resolveSPF ctx fuel hostname rrtype) := by
  induction fuel generalizing hostname rrtype with
  | zero => exact noRedirect_divM
  | succ f ih =>
    show NoRedirect (resolveSPFAux ctx (resolveSPF ctx f) hostname rrtype)
    unfold resolveSPFAux
    apply noRedirect_bind
    intro strs
    dsimp only
    repeat' first
      | exact noRedirect_throwSpf _ _
      | exact noRedirect_throwRes _
      | exact noRedirect_resolveMechLoopAux ctx (fun d rr => ih d rr) hostname rrtype
          _ _ [] (fun x hx => absurd hx (List.not_mem_nil x))
      | apply noRedirect_bind
      | split
      | intro _

/-- C3: a `redirect` modifier is followed if and only if the policy has no
`all` mechanism: with a catch-all present the loop skips it outright (no
DNS work, no output entry), without one it recursively resolves the
target's full mechanism list and splices it in place of the modifier; and
in either case no `redirect` entry ever appears in a successfully resolved
mechanism list. -/
theorem redirect_followed_iff_no_all (ctx : Ctx) (rspf : String → RR → M (List RMech))
    (hostname : String) (rrtype : RR) (m : Mech) (rest : List Mech) (acc : List RMech)
    (fuel : Nat) (host : String) (hm : m.type = "redirect") :
    (resolveMechLoopAux ctx rspf hostname rrtype true (m :: rest) acc
       = resolveMechLoopAux ctx rspf hostname rrtype true rest acc)
    ∧ (resolveMechLoopAux ctx rspf hostname rrtype false (m :: rest) acc
       = M.bind (rspf (m.value.getD "") rrtype)
           (fun sub => resolveMechLoopAux ctx rspf hostname rrtype false rest (acc ++ sub)))
    ∧ (∀ (s : SPFState) (l : List RMech) (s' : SPFState),
        resolveSPF ctx fuel host rrtype s = (Res.ok l, s') →
        ∀ mm ∈ l, mm.type ≠ "redirect") := by
  refine ⟨?_, ?_, ?_⟩
  · simp only [resolveMechLoopAux]
    rw [if_pos hm]
    rfl
  · simp only [resolveMechLoopAux]
    rw [if_pos hm]
    rfl
  · intro s l s' h
    exact noRedirect_resolveSPF ctx fuel host rrtype s l s' h

/-- Witness for C3 at a concrete redirect mechanism. -/
theorem redirect_followed_iff_no_all_witness :
    (Mech.mk "redirect" (some "_spf.example.com") "Pass").type = "redirect" ∧
    resolveMechLoopAux ctxW (resolveSPF ctxW 2) "example.com" RR.A true
        [Mech.mk "redirect" (some "_spf.example.com") "Pass"] []
      = resolveMechLoopAux ctxW (resolveSPF ctxW 2) "example.com" RR.A true [] [] :=
  ⟨rfl,
   (redirect_followed_iff_no_all ctxW (resolveSPF ctxW 2) "example.com" RR.A
      (Mech.mk "redirect" (some "_spf.example.com") "Pass") [] [] 2 "example.com" rfl).1⟩

/-- The mechanism loop is oblivious to anything after the first `all`:
the run (including all its DNS effects) is identical whether the
mechanisms after the first `all` are present or deleted. -/
theorem loop_truncates_at_all (ctx : Ctx) (rspf : String → RR → M (List RMech))
    (hostname : String) (rrtype : RR) (catchAll : Bool) (allm : Mech)
    (post : List Mech) (hall : allm.type = "all") :
    ∀ pre acc, (∀ x ∈ pre, x.type ≠ "all") →
      resolveMechLoopAux ctx rspf hostname rrtype catchAll (pre ++ allm :: post) acc
        = resolveMechLoopAux ctx rspf hostname rrtype catchAll (pre ++ [allm]) acc := by
  intro pre
  induction pre with
  | nil =>
    intro acc hpre
    simp only [List.nil_append]
    simp only [resolveMechLoopAux]
    have hred : ¬(allm.type = "redirect") := by rw [hall]; decide
    rw [if_neg hred, if_neg hred]
    apply bind_congr
    intro va
    dsimp only
    apply bind_congr
    intro rm'
    dsimp only
    rw [if_pos hall, if_pos hall]
  | cons p pre' ih =>
    intro acc hpre
    have hp : p.type ≠ "all" := hpre p (List.mem_cons_self p pre')
    simp only [List.cons_append]
    simp only [resolveMechLoopAux]
    by_cases hpr : p.type = "redirect"
    · rw [if_pos hpr, if_pos hpr]
      by_cases hc : catchAll = true
      · rw [if_pos hc, if_pos hc]
        exact ih acc (fun x hx => hpre x (List.mem_cons_of_mem p hx))
      · rw [if_neg hc, if_neg hc]
        apply bind_congr
        intro sub
        exact ih (acc ++ sub) (fun x hx => hpre x (List.mem_cons_of_mem p hx))
    · rw [if_neg hpr, if_neg hpr]
      apply bind_congr
      intro va
      dsimp only
      apply bind_congr
      intro rm'
      dsimp only
      rw [if_neg hp, if_neg hp]
      exact ih (acc ++ [rm']) (fun x hx => hpre x (List.mem_cons_of_mem p hx))

/-- When the mechanism list contains an `all`, a successful run of the
loop produces a list whose last entry is `all`: the loop broke right
after appending it. -/
theorem loop_ends_with_all (ctx : Ctx) {rspf : String → RR → M (List RMech)}
    (hostname : String) (rrtype : RR) (catchAll : Bool) :
    ∀ ms acc s l s', (∃ x ∈ ms, x.type = "all") →
      resolveMechLoopAux ctx rspf hostname rrtype catchAll ms acc s = (Res.ok l, s') →
      ∃ mlast, l.getLast? = some mlast ∧ mlast.type = "all" := by
  intro ms
  induction ms with
  | nil =>
    intro acc s l s' hex _
    obtain ⟨x, hx, _⟩ := hex
    exact absurd hx (List.not_mem_nil x)
  | cons m rest ih =>
    intro acc s l s' hex h
    simp only [resolveMechLoopAux] at h
    by_cases hm : m.type = "redirect"
    · have hrest : ∃ x ∈ rest, x.type = "all" := by
        obtain ⟨x, hx, hxa⟩ := hex
        rcases List.mem_cons.mp hx with h1 | h2
        · rw [h1, hm] at hxa
          exact absurd hxa (by decide)
        · exact ⟨x, h2, hxa⟩
      rw [if_pos hm] at h
      by_cases hc : catchAll = true
      · rw [if_pos hc] at h
        exact ih acc s l s' hrest h
      · rw [if_neg hc] at h
        rw [bind_def] at h
        obtain ⟨sub, s₁, _, hk⟩ := bind_ok_inv h
        exact ih (acc ++ sub) s₁ l s' hrest hk
    · rw [if_neg hm] at h
      rw [bind_def] at h
      obtain ⟨va, s₁, _, h⟩ := bind_ok_inv h
      rw [bind_def] at h
      obtain ⟨rm', s₂, hrm, h⟩ := bind_ok_inv h
      have htype : rm'.type = m.type := prefetchStep_ok_type ctx rspf _ hrm
      by_cases hall : m.type = "all"
      · rw [if_pos hall] at h
        obtain ⟨h1, _⟩ := pure_ok_inv h
        refine ⟨rm', ?_, by rw [htype, hall]⟩
        rw [← h1]
        exact List.getLast?_concat _
      · have hrest : ∃ x ∈ rest, x.type = "all" := by
          obtain ⟨x, hx, hxa⟩ := hex
          rcases List.mem_cons.mp hx with h1 | h2
          · rw [h1] at hxa
            exact absurd hxa hall
          · exact ⟨x, h2, hxa⟩
        rw [if_neg hall] at h
        exact ih (acc ++ [rm']) s₂ l s' hrest h

/-- Evaluation of a list headed by an `all` mechanism returns at that
mechanism: the result is `buildMatchResult` of the `all` entry, whatever
follows it. -/
theorem evaluateAux_stops_at_all (ctx : Ctx) (runAct : RAction → M AssignData)
    (evalRec : List RMech → M SPFResult) (addrOpt : Option IPAddr)
    (m : RMech) (rest : List RMech)
    (hall : m.type = "all") (hact : m.action = Option.none) :
    evaluateAux ctx runAct evalRec addrOpt (m :: rest)
      = buildMatchResult m m.evaluated := by
  cases m with
  | mk t v p a r x ad i e =>
    have ht : t = "all" := hall
    have ha : a = Option.none := hact
    subst ht
    subst ha
    simp only [evaluateAux]
    by_cases hp : ctx.opts.prefetch = true
    · rw [if_pos hp]
      rfl
    · rw [if_neg hp]
      rfl

/-- C4: mechanisms declared after the first `all` are never resolved and
never matched: the resolution loop's run is identical (same output, same
DNS effects) whether they are present or deleted, any successful
resolution of a policy containing an `all` yields a list whose last entry
is `all`, and evaluation of a list headed by an `all` mechanism returns
there, never looking at what follows. -/
theorem mechanisms_after_all_unreachable (ctx : Ctx)
    (rspf : String → RR → M (List RMech)) (hostname : String) (rrtype : RR)
    (catchAll : Bool) (allm : Mech) (post pre : List Mech) (acc : List RMech)
    (runAct : RAction → M AssignData) (evalRec : List RMech → M SPFResult)
    (addrOpt : Option IPAddr) (em : RMech) (erest erest' : List RMech)
    (hall : allm.type = "all") (hpre : ∀ x ∈ pre, x.type ≠ "all")
    (hem : em.type = "all") (hact : em.action = Option.none) :
    (resolveMechLoopAux ctx rspf hostname rrtype catchAll (pre ++ allm :: post) acc
       = resolveMechLoopAux ctx rspf hostname rrtype catchAll (pre ++ [allm]) acc)
    ∧ (∀ (s : SPFState) (l : List RMech) (s' : SPFState),
        resolveMechLoopAux ctx rspf hostname rrtype catchAll (pre ++ allm :: post) acc s
          = (Res.ok l, s') →
        ∃ mlast, l.getLast? = some mlast ∧ mlast.type = "all")
    ∧ (evaluateAux ctx runAct evalRec addrOpt (em :: erest)
       = evaluateAux ctx runAct evalRec addrOpt (em :: erest')) := by
  refine ⟨?_, ?_, ?_⟩
  · exact loop_truncates_at_all ctx rspf hostname rrtype catchAll allm post hall pre acc hpre
  · intro s l s' h
    exact loop_ends_with_all ctx hostname rrtype catchAll (pre ++ allm :: post) acc s l s'
      ⟨allm, List.mem_append.mpr (Or.inr (List.mem_cons_self allm post)), hall⟩ h
  · rw [evaluateAux_stops_at_all ctx runAct evalRec addrOpt em erest hem hact,
        evaluateAux_stops_at_all ctx runAct evalRec addrOpt em erest' hem hact]

/-- Witness for C4 at concrete mechanism lists. -/
theorem mechanisms_after_all_unreachable_witness :
    ((Mech.mk "all" Option.none "Pass").type = "all"
      ∧ (RMech.mk "all" Option.none "Pass" Option.none Option.none Option.none
          Option.none Option.none Option.none).type = "all") ∧
    resolveMechLoopAux ctxW (resolveSPF ctxW 2) "example.com" RR.A true
        [Mech.mk "ip4" (some "127.0.0.1") "Pass", Mech.mk "all" Option.none "Pass",
         Mech.mk "a" Option.none "Pass"] []
      = resolveMechLoopAux ctxW (resolveSPF ctxW 2) "example.com" RR.A true
          [Mech.mk "ip4" (some "127.0.0.1") "Pass", Mech.mk "all" Option.none "Pass"] [] :=
  ⟨⟨rfl, rfl⟩,
   (mechanisms_after_all_unreachable ctxW (resolveSPF ctxW 2) "example.com" RR.A true
      (Mech.mk "all" Option.none "Pass") [Mech.mk "a" Option.none "Pass"]
      [Mech.mk "ip4" (some "127.0.0.1") "Pass"] []
      (runActionF ctxW (resolveSPF ctxW 2)) (evaluate ctxW 2 Option.none) Option.none
      (RMech.mk "all" Option.none "Pass" Option.none Option.none Option.none
        Option.none Option.none Option.none) [] [] rfl
      (by intro x hx; rw [List.mem_singleton.mp hx]; decide) rfl rfl).1⟩

/-- C8 (exhibit of the code bug): for the policy
`inc.example.com → include:_spf.example.com → +all`, the innermost match
is `all` through an `include`, so by the claim (and the `matched` field's
own doc comment, "List of all matched mechanisms") the result should carry
`["all", "include"]`; the code's `_.merge(["include"], ["all"])` instead
overwrites index-wise and yields `["all"]`, losing the `include` entry. -/
theorem matched_list_merge_bug :
    (checkTop ctxInc 5 "127.0.0.1").1 =
      Res.ok { result := RKind.Pass,
               message := "Client is authorized to inject mail with the given identity",
               mechanism := "include",
               matched := ["all"] }
    ∧ lodashMerge ["include"] ["all"] = ["all"]
    ∧ (["all"] : List String) ≠ ["all", "include"] := by
  refine ⟨by decide, by decide, by decide⟩

/-- C7 (exhibit of the code bug): `minus.example.com` publishes
`v=spf1 -include:x.example.com` and `x.example.com` publishes
`v=spf1 include:t.example.com -all`, so `t.example.com` is reachable in
the include graph; yet `checkInclude("t.example.com")` returns Fail,
because the traversal wraps the nested Pass in
`new SPFResult(mechanism.prefixdesc)` and the `-` qualifier turns it into
Fail. The same graph with the default `+` qualifier returns Pass, isolating
the qualifier as the cause. -/
theorem checkInclude_qualifier_bug :
    (checkIncludeTop ctxMinus 5 "t.example.com").1 =
      Res.ok { result := RKind.Fail,
               message := "Client is *not* authorized to use the domain in the given identity",
               mechanism := "include",
               matched := ["include"] }
    ∧ (checkIncludeTop ctxPlus 5 "t.example.com").1 =
      Res.ok { result := RKind.Pass,
               message := "Client is authorized to inject mail with the given identity",
               mechanism := "include",
               matched := ["include"] } := by
  refine ⟨by decide, by decide⟩

end SpfCheck
